import Mathlib

/-!
A shallow embedding of the core state of the `peep` terminal pager:
the key-event state machine (`src/keybind.rs`), the viewport/render
state (`src/pane.rs`) and the event orchestrator (`src/app.rs`).

Machine integers (`u16`/`usize`) are modelled as `Nat`.  Where the Rust
code performs an unsigned subtraction that can underflow (a panic in the
source), the model uses `checkedSub`, returning `none` exactly on
underflow; functions threading such subtractions return `Option`.
Terminal escape-sequence output is elided: only the state effects of
each operation are modelled (scroll position, options, message text and
the flushed-line bookkeeping that later operations read back).
-/

/-- Checked unsigned subtraction: `none` exactly when the Rust `u16`/`usize`
subtraction `a - b` would underflow (panic). -/
def checkedSub (a b : Nat) : Option Nat :=
  if b ≤ a then some (a - b) else none

/-! ## Events and keys (`src/event.rs`, termion `Key`) -/

/-- Source `PeepEvent` from `src/event.rs`.  `QuitWithClear` is referenced by the
key table in `src/keybind.rs` (bound to the key `Q`). -/
inductive PeepEvent where
  | MoveDown (n : Nat)
  | MoveUp (n : Nat)
  | MoveLeft (n : Nat)
  | MoveRight (n : Nat)
  | MoveDownHalfPages (n : Nat)
  | MoveUpHalfPages (n : Nat)
  | MoveLeftHalfPages (n : Nat)
  | MoveRightHalfPages (n : Nat)
  | MoveDownPages (n : Nat)
  | MoveUpPages (n : Nat)
  | MoveToHeadOfLine
  | MoveToEndOfLine
  | MoveToTopOfLines
  | MoveToBottomOfLines
  | MoveToLineNumber (n : Nat)
  | ToggleLineNumberPrinting
  | ToggleLineWraps
  | IncrementLines (n : Nat)
  | DecrementLines (n : Nat)
  | SetNumOfLines (n : Nat)
  | SearchIncremental (s : String)
  | SearchTrigger
  | SearchNext
  | SearchPrev
  | Message (s : Option String)
  | Cancel
  | Quit
  | QuitWithClear
  | FollowMode
  | FileUpdated
  | SigInt
deriving DecidableEq, Repr

/-- The subset of `termion::event::Key` the key-bind machine distinguishes.
All remaining termion variants fall into the wildcard arms of the source
and are collapsed into `other`. -/
inductive PKey where
  | char (c : Char)
  | ctrl (c : Char)
  | esc
  | backspace
  | delete
  | other
deriving DecidableEq, Repr

/-! ## Key-bind state machine (`src/keybind.rs`, `mod default`) -/

inductive KBState where
  | ready
  | incSearching
  | numbering
  | commanding
deriving DecidableEq, Repr

/-- Source `KeyBind` state: the four-state machine plus the accumulated repeat
count (`number`) and the accumulated text buffer (`searching_keys`).
The `cmap` table is the fixed function `cmapLookup` below. -/
structure KeyBind where
  state : KBState
  number : Nat
  searchingKeys : String
deriving DecidableEq, Repr

/-- Source `KeyBind::new()`. -/
def keyBindNew : KeyBind :=
  { state := .ready, number := 0, searchingKeys := "" }

/-- Source `KeyBind::default_command_table()`: the `HashMap<Key, PeepEvent>` as a
lookup function (all keys of the table are distinct). -/
def cmapLookup (k : PKey) : Option PeepEvent :=
  match k with
  | .char 'j' => some (.MoveDown 1)
  | .ctrl 'j' => some (.MoveDown 1)
  | .ctrl 'n' => some (.MoveDown 1)
  | .char 'k' => some (.MoveUp 1)
  | .ctrl 'k' => some (.MoveUp 1)
  | .ctrl 'p' => some (.MoveUp 1)
  | .char 'h' => some (.MoveLeft 1)
  | .char 'l' => some (.MoveRight 1)
  | .char 'd' => some (.MoveDownHalfPages 1)
  | .ctrl 'd' => some (.MoveDownHalfPages 1)
  | .char 'u' => some (.MoveUpHalfPages 1)
  | .ctrl 'u' => some (.MoveUpHalfPages 1)
  | .char 'H' => some (.MoveLeftHalfPages 1)
  | .char 'L' => some (.MoveRightHalfPages 1)
  | .char 'f' => some (.MoveDownPages 1)
  | .ctrl 'f' => some (.MoveDownPages 1)
  | .char ' ' => some (.MoveDownPages 1)
  | .char 'b' => some (.MoveUpPages 1)
  | .ctrl 'b' => some (.MoveUpPages 1)
  | .char '0' => some .MoveToHeadOfLine
  | .ctrl 'a' => some .MoveToHeadOfLine
  | .char '$' => some .MoveToEndOfLine
  | .ctrl 'e' => some .MoveToEndOfLine
  | .char 'g' => some .MoveToTopOfLines
  | .char 'G' => some .MoveToBottomOfLines
  | .char '#' => some .ToggleLineNumberPrinting
  | .char '!' => some .ToggleLineWraps
  | .char '-' => some (.DecrementLines 1)
  | .char '+' => some (.IncrementLines 1)
  | .char '=' => some (.SetNumOfLines 0)
  | .char 'n' => some .SearchNext
  | .char 'N' => some .SearchPrev
  | .char 'q' => some .Quit
  | .char 'Q' => some .QuitWithClear
  | .char 'F' => some .FollowMode
  | _ => none

/-- Source `KeyBind::trans_to_ready`: resets the state and the repeat count;
note that it does NOT clear `searching_keys`. -/
def transToReady (kb : KeyBind) : KeyBind :=
  { kb with state := .ready, number := 0 }

/-- Source `KeyBind::trans_to_incsearching`. -/
def transToIncsearching (kb : KeyBind) : KeyBind :=
  { kb with state := .incSearching, number := 0 }

/-- Source `KeyBind::trans_to_numbering`: records the first digit and pushes it
onto `searching_keys`. -/
def transToNumbering (kb : KeyBind) (c : Char) : KeyBind :=
  { kb with
    state := .numbering
    number := c.toNat - '0'.toNat
    searchingKeys := kb.searchingKeys.push c }

/-- Source `KeyBind::trans_to_commanding`. -/
def transToCommanding (kb : KeyBind) : KeyBind :=
  { kb with state := .commanding }

/-- Source `KeyBind::combine_command`: combine a table command with the pending
repeat count (`valid_num` resolves a count of 0 to 1). -/
def combineCommand (number : Nat) (op : PeepEvent) : Option PeepEvent :=
  let validNum : Nat → Nat := fun n => if n = 0 then 1 else n
  match op with
  | .MoveDown _ => some (.MoveDown (validNum number))
  | .MoveUp _ => some (.MoveUp (validNum number))
  | .MoveLeft _ => some (.MoveLeft (validNum number))
  | .MoveRight _ => some (.MoveRight (validNum number))
  | .MoveDownHalfPages _ => some (.MoveDownHalfPages (validNum number))
  | .MoveUpHalfPages _ => some (.MoveUpHalfPages (validNum number))
  | .MoveLeftHalfPages _ => some (.MoveLeftHalfPages (validNum number))
  | .MoveRightHalfPages _ => some (.MoveRightHalfPages (validNum number))
  | .MoveDownPages _ => some (.MoveDownPages (validNum number))
  | .MoveUpPages _ => some (.MoveUpPages (validNum number))
  | .MoveToTopOfLines =>
      if number = 0 then some .MoveToTopOfLines
      else some (.MoveToLineNumber (number - 1))
  | .MoveToBottomOfLines =>
      if number = 0 then some .MoveToBottomOfLines
      else some (.MoveToLineNumber (number - 1))
  | .MoveToLineNumber _ => some (.MoveToLineNumber (validNum number))
  | .IncrementLines _ => some (.IncrementLines (validNum number))
  | .DecrementLines _ => some (.DecrementLines (validNum number))
  | .SetNumOfLines _ =>
      if number = 0 then none else some (.SetNumOfLines number)
  | _ => some op

/-- Source `KeyBind::action_commanding`. -/
def actionCommanding (kb : KeyBind) (k : PKey) : KeyBind × Option PeepEvent :=
  let op : Option PeepEvent :=
    match k with
    | .char _ | .ctrl _ =>
        match cmapLookup k with
        | some v => combineCommand kb.number v
        | none => some (.Message none)
    | _ => some (.Message none)
  (transToReady kb, op)

/-- Source `KeyBind::action_ready`. -/
def actionReady (kb : KeyBind) (k : PKey) : KeyBind × Option PeepEvent :=
  match k with
  | .char c =>
      if c = '/' then
        (transToIncsearching kb, some (.SearchIncremental ("")))
      else if '1' ≤ c ∧ c ≤ '9' then
        (transToNumbering kb c, none)
      else
        actionCommanding (transToCommanding kb) (.char c)
  | .ctrl c => actionCommanding (transToCommanding kb) (.ctrl c)
  | .esc => (kb, some .Cancel)
  | _ => (kb, none)

/-- Source `KeyBind::action_incsearching`. -/
def actionIncsearching (kb : KeyBind) (k : PKey) : KeyBind × Option PeepEvent :=
  match k with
  | .char c =>
      if c = '\n' then
        ({ transToReady kb with searchingKeys := "" }, some .SearchTrigger)
      else
        let s := kb.searchingKeys.push c
        ({ kb with searchingKeys := s }, some (.SearchIncremental s))
  | .backspace | .delete =>
      if kb.searchingKeys = "" then
        ({ transToReady kb with searchingKeys := "" }, some .Cancel)
      else
        let s := kb.searchingKeys.dropRight 1
        ({ kb with searchingKeys := s }, some (.SearchIncremental s))
  | .esc =>
      ({ transToReady kb with searchingKeys := "" }, some .Cancel)
  | _ => (kb, none)

/-- Source `KeyBind::action_numbering`: folds digit keys into the accumulator;
`Esc`/newline silently return to `Ready` (no `Cancel` event). -/
def actionNumbering (kb : KeyBind) (k : PKey) : KeyBind × Option PeepEvent :=
  match k with
  | .char c =>
      if '0' ≤ c ∧ c ≤ '9' then
        ({ kb with number := kb.number * 10 + (c.toNat - '0'.toNat) }, none)
      else if c = '\n' then
        (transToReady kb, none)
      else
        actionCommanding (transToCommanding kb) (.char c)
  | .esc => (transToReady kb, none)
  | .ctrl c => actionCommanding (transToCommanding kb) (.ctrl c)
  | _ => (kb, none)

/-- Source `KeyBind::trans` / `KeyParser::parse`. -/
def kbParse (kb : KeyBind) (k : PKey) : KeyBind × Option PeepEvent :=
  match kb.state with
  | .ready => actionReady kb k
  | .incSearching => actionIncsearching kb k
  | .numbering => actionNumbering kb k
  | .commanding => actionCommanding kb k

/-- Feed a key sequence through the machine, collecting the emitted events. -/
def runKeys (kb : KeyBind) : List PKey → KeyBind × List PeepEvent
  | [] => (kb, [])
  | k :: ks =>
      let r := kbParse kb k
      let rest := runKeys r.1 ks
      (rest.1, match r.2 with
               | some e => e :: rest.2
               | none => rest.2)

/-! ## Viewport / render state (`src/pane.rs`)

`Pane` state.  The writer, the shared `Rc`/`RefCell` plumbing and the
highlight searcher handle are I/O- or aliasing-only and are elided; the
terminal-size getter is modelled by the `termWidth`/`termHeight` fields
(the source reads it through a closure returning `(width, height)`). -/

structure PaneState where
  linebuf : List String
  height : Nat
  numofFlushedLines : Nat
  numofSemanticFlushedLines : Nat
  curX : Nat
  curY : Nat
  showLinenumber : Bool
  showHighlight : Bool
  message : String
  tabWidth : Nat
  wrapsLine : Bool
  termWidth : Nat
  termHeight : Nat
deriving DecidableEq, Repr

/-- Source `Pane::MARGIN_RIGHT_WIDTH`. -/
def MARGIN_RIGHT_WIDTH : Nat := 4

/-- Source `Pane::MESSAGE_BAR_HEIGHT`. -/
def MESSAGE_BAR_HEIGHT : Nat := 1

/-- Source `ScrollStep` (`Char`/`HalfPage`/`Page`). -/
inductive ScrollStep where
  | char (n : Nat)
  | halfPage (n : Nat)
  | page (n : Nat)
deriving DecidableEq, Repr

/-- Source `ScrollStep::to_numof_chars`. -/
def toNumofChars (ss : ScrollStep) (pageSize : Nat) : Nat :=
  match ss with
  | .char n => n
  | .halfPage n => (pageSize * n) / 2
  | .page n => pageSize * n

/-- The per-character display width `width_cjk` of the external
`unicode-width` crate, modelled on its ASCII behaviour (`none` for
control characters, width 1 otherwise).  Every buffer appearing in a
theorem or witness below is ASCII, where this model is exact. -/
def charWidthCjk (c : Char) : Option Nat :=
  if c.toNat < 0x20 ∨ c.toNat = 0x7f then none else some 1

/-- Source `UnicodeWidthStr::width` of a string: the sum of the character widths
(`unwrap_or(0)` on control characters). -/
def displayWidth (s : String) : Nat :=
  s.data.foldl (fun a c => a + (charWidthCjk c).getD 0) 0

/-- Source `TabExpander::expand` (`src/tab.rs`): replace tabs by spaces up to the
next tab stop, tracking the expanded display column; characters whose
width is `none` are dropped (`map_or(0, ..)` without a push). -/
def expandTab (tabWidth : Nat) (s : String) : String :=
  let step : String × Nat → Char → String × Nat := fun acc c =>
    if c = '\t' then
      if 0 < tabWidth then
        let frac := tabWidth - acc.2 % tabWidth
        (acc.1 ++ String.mk (List.replicate frac ' '), acc.2 + frac)
      else acc
    else
      match charWidthCjk c with
      | some w => (acc.1.push c, acc.2 + w)
      | none => acc
  (s.data.foldl step ("", 0)).1

/-- Source `Pane::pane_size`: `(terminal width, min(terminal height, height))`. -/
def paneSize (p : PaneState) : Nat × Nat :=
  (p.termWidth, min p.termHeight p.height)

/-- Source `Pane::line_number_printing_width`. -/
def lineNumberPrintingWidth (p : PaneState) : Nat :=
  if p.linebuf.length ≤ 99 then 2
  else if p.linebuf.length ≤ 999 then 3
  else if p.linebuf.length ≤ 9999 then 4
  else 5

/-- Source `Pane::width_of_text_area`. -/
def widthOfTextArea (p : PaneState) : Nat :=
  let paneWidth := (paneSize p).1
  let extendMarkSpace : Nat := if p.wrapsLine then 1 else 2
  let lnpw : Nat := if p.showLinenumber then lineNumberPrintingWidth p else 0
  if lnpw + extendMarkSpace < paneWidth then paneWidth - lnpw - extendMarkSpace
  else 0

/-- Source `Pane::range_of_visible_lines`: `y .. min(buf_height, y + pane_height)`
as a start/end pair; the source computes `buf_height - y` on `usize`,
which panics when `y > buf_height` (modelled by `checkedSub`). -/
def rangeOfVisibleLines (p : PaneState) : Option (Nat × Nat) :=
  let paneHeight := (paneSize p).2
  let bufHeight := p.linebuf.length
  (checkedSub bufHeight p.curY).map fun d =>
    (p.curY, if d < paneHeight then bufHeight else p.curY + paneHeight)

/-- Source `Pane::max_width_of_visible_lines`: maximal display width over the
slice of the buffer. -/
def maxWidthOfVisibleLines (p : PaneState) (r : Nat × Nat) : Nat :=
  ((p.linebuf.take r.2).drop r.1).foldl (fun a s => max a (displayWidth s)) 0

/-- Source `Pane::pane_printable_width`: pane width minus the line-number gutter;
the `u16` subtraction underflows when the gutter is wider than the pane. -/
def panePrintableWidth (p : PaneState) : Option Nat :=
  checkedSub (paneSize p).1
    (if p.showLinenumber then lineNumberPrintingWidth p else 0)

/-- Source `Pane::limit_right_x`: clamp a requested horizontal offset against the
longest visible line plus the fixed right margin. -/
def limitRightX (p : PaneState) (nextX maxLen : Nat) : Option Nat :=
  (panePrintableWidth p).map fun paneWidth =>
    let marginedLen := maxLen + MARGIN_RIGHT_WIDTH
    if marginedLen ≤ paneWidth then 0
    else if nextX + paneWidth ≤ marginedLen then nextX
    else marginedLen - paneWidth

/-- Source `Pane::count_wrapped_lines`: physical rows of one logical line in wrap
mode, `text.len() / pane_width + 1` on the byte length. -/
def countWrappedLines (p : PaneState) (text : String) : Nat :=
  let paneWidth := widthOfTextArea p
  if paneWidth = 0 then 0 else text.utf8ByteSize / paneWidth + 1

/-- Loop body of the wrap-mode branch of `Pane::limit_bottom_y`: walk the
buffer from the end (pairs `(i, line)` in descending index order), summing
wrapped row counts until the pane height is reached. -/
def limitBottomYWrap (p : PaneState) (paneHeight : Nat) :
    List (Nat × String) → Nat → Nat
  | [], _ => 0
  | (i, l) :: rest, sum =>
      let sum2 := sum + countWrappedLines p l
      if paneHeight ≤ sum2 then i + 1 else limitBottomYWrap p paneHeight rest sum2

/-- Source `Pane::limit_bottom_y`.  (In the wrap branch the source's
`i == linebuf_height` test is dead — the loop index is always below the
buffer length — so the result there is `i + 1`.) -/
def limitBottomY (p : PaneState) : Nat :=
  let linebufHeight := p.linebuf.length
  let paneHeight := (paneSize p).2
  if p.wrapsLine then
    limitBottomYWrap p paneHeight p.linebuf.enum.reverse 0
  else if paneHeight < linebufHeight then linebufHeight - paneHeight
  else 0

/-- Length of the maximal prefix of `cs` whose cumulative display width
stays within `w`: the number of characters `unicode_index_of_width`
(`src/unicode_divide.rs`) lets into one slice. -/
def dividePrefixLen (w : Nat) : List Char → Nat → Nat
  | [], _ => 0
  | c :: cs, sum =>
      let sum2 := sum + (charWidthCjk c).getD 0
      if w < sum2 then 0 else 1 + dividePrefixLen w cs sum2

/-- Number of slices `UnicodeStrDivider` yields over `cs` with slice width
`w`.  Like the source iterator it yields nothing on an empty string.  With
`w = 0` the source loop in `decorate_wrap` would never advance (all
character widths here are ≤ 1, so with `w ≥ 1` each slice consumes at
least one character, `dividePrefixLen ≥ 1`); that dead case is modelled
as 0, and dropping `dividePrefixLen` characters from `c :: rest` is
written as dropping one fewer from `rest`. -/
def numSlices (w : Nat) (cs : List Char) : Nat :=
  match cs with
  | [] => 0
  | c :: rest =>
      if w = 0 then 0
      else 1 + numSlices w (rest.drop (dividePrefixLen w (c :: rest) 0 - 1))
termination_by cs.length
decreasing_by
  simp only [List.length_drop, List.length_cons]
  omega

/-- Physical terminal rows one logical line occupies in a redraw: the
line count of `Pane::decorate`'s output.  `decorate_trim` (non-wrap)
yields a single row; `decorate_wrap` yields one row per divider slice
over the tab-expanded line, with one blank row for an empty line. -/
def rowsOfLine (p : PaneState) (line : String) : Nat :=
  if p.wrapsLine then
    max 1 (numSlices (widthOfTextArea p) (expandTab p.tabWidth line).data)
  else 1

/-- The flushed-lines loop of `Pane::refresh`: `numof_semantic_flushed_lines`
is set to `i + 1` for each visible logical line processed, and the loop
breaks once the physical row budget `pane_height` is filled. -/
def refreshNsfl (p : PaneState) (paneHeight : Nat) :
    List String → Nat → Nat → Nat → Nat
  | [], _, _, cur => cur
  | l :: ls, idx, n, _ =>
      let n2 := n + rowsOfLine p l
      if paneHeight ≤ n2 then idx + 1
      else refreshNsfl p paneHeight ls (idx + 1) n2 (idx + 1)

/-- State effect of `Pane::refresh`: update the two flushed-line counters
(the emitted terminal block is elided).  `none` when the visible-range
computation panics. -/
def refresh (p : PaneState) : Option PaneState :=
  (rangeOfVisibleLines p).map fun r =>
    let paneHeight := (paneSize p).2
    let vis := (p.linebuf.take r.2).drop r.1
    { p with
      numofSemanticFlushedLines :=
        refreshNsfl p paneHeight vis 0 0 p.numofSemanticFlushedLines
      numofFlushedLines := paneHeight }

/-- Source `Pane::scroll_up`: returns the state and the actual distance moved. -/
def scrollUp (p : PaneState) (ss : ScrollStep) : PaneState × Nat :=
  let step := toNumofChars ss p.numofSemanticFlushedLines
  let astep := if step < p.curY then step else p.curY
  ({ p with curY := p.curY - astep }, astep)

/-- Source `Pane::scroll_down`. -/
def scrollDown (p : PaneState) (ss : ScrollStep) : PaneState × Nat :=
  let step := toNumofChars ss p.numofSemanticFlushedLines
  let endY := limitBottomY p
  let astep :=
    if p.curY + step < endY then step
    else if p.curY < endY then endY - p.curY
    else 0
  ({ p with curY := p.curY + astep }, astep)

/-- Source `Pane::scroll_left`. -/
def scrollLeft (p : PaneState) (ss : ScrollStep) : Option (PaneState × Nat) :=
  if p.wrapsLine then some (p, 0)
  else
    (panePrintableWidth p).map fun pw =>
      let step := toNumofChars ss pw
      let astep := if step < p.curX then step else p.curX
      ({ p with curX := p.curX - astep }, astep)

/-- Source `Pane::scroll_right`: the returned distance is the `u16` subtraction
`limit_right_x(x + step, max_width) - x`, which underflows (`none`)
whenever the clamped target is left of the current offset. -/
def scrollRight (p : PaneState) (ss : ScrollStep) : Option (PaneState × Nat) :=
  if p.wrapsLine then some (p, 0)
  else do
    let pw ← panePrintableWidth p
    let step := toNumofChars ss pw
    let r ← rangeOfVisibleLines p
    let maxLineWidth := maxWidthOfVisibleLines p r
    let x ← limitRightX p (p.curX + step) maxLineWidth
    let astep ← checkedSub x p.curX
    some ({ p with curX := x }, astep)

/-- Source `Pane::goto_top_of_lines`. -/
def gotoTopOfLines (p : PaneState) : PaneState × (Nat × Nat) :=
  ({ p with curX := 0, curY := 0 }, (0, 0))

/-- Source `Pane::goto_bottom_of_lines`. -/
def gotoBottomOfLines (p : PaneState) : PaneState × (Nat × Nat) :=
  let y := limitBottomY p
  ({ p with curX := 0, curY := y }, (0, y))

/-- Source `Pane::goto_head_of_line`. -/
def gotoHeadOfLine (p : PaneState) : PaneState × (Nat × Nat) :=
  if p.wrapsLine then (p, (p.curX, p.curY))
  else ({ p with curX := 0 }, (0, p.curY))

/-- Source `Pane::goto_tail_of_line`. -/
def gotoTailOfLine (p : PaneState) : Option (PaneState × (Nat × Nat)) :=
  if p.wrapsLine then some (p, (p.curX, p.curY))
  else do
    let r ← rangeOfVisibleLines p
    let maxLineWidth := maxWidthOfVisibleLines p r
    let x ← limitRightX p maxLineWidth maxLineWidth
    some ({ p with curX := x }, (x, p.curY))

/-- Source `Pane::goto_absolute_line`: clamps `lineno ≥ buf_height` down to
`buf_height - 1`; on an empty buffer that `u16` subtraction underflows. -/
def gotoAbsoluteLine (p : PaneState) (lineno : Nat) : Option (PaneState × Nat) :=
  (checkedSub p.linebuf.length 1).map fun lastIdx =>
    let y := if p.linebuf.length ≤ lineno then lastIdx else lineno
    ({ p with curY := y }, y)

/-- Source `Pane::goto_absolute_horizontal_offset`. -/
def gotoAbsoluteHorizontalOffset (p : PaneState) (offset : Nat) :
    Option (PaneState × Nat) :=
  if p.wrapsLine then some (p, p.curX)
  else do
    let r ← rangeOfVisibleLines p
    let maxLineWidth := maxWidthOfVisibleLines p r
    let x ← limitRightX p offset maxLineWidth
    some ({ p with curX := x }, x)

/-- Source `Pane::set_height`: clamp the request into `[1, terminal_rows - 1]`
(one row is reserved for the message bar) and return the applied value. -/
def setHeight (p : PaneState) (n : Nat) : Option (PaneState × Nat) :=
  (checkedSub p.termHeight MESSAGE_BAR_HEIGHT).map fun mx =>
    let h := if n = 0 then 1 else if mx < n then mx else n
    ({ p with height := h }, h)

/-- Source `Pane::increment_height`. -/
def incrementHeight (p : PaneState) (n : Nat) : Option (PaneState × Nat) :=
  setHeight p (p.height + n)

/-- Source `Pane::decrement_height`. -/
def decrementHeight (p : PaneState) (n : Nat) : Option (PaneState × Nat) :=
  setHeight p (if n < p.height then p.height - n else 1)

/-- Source `Pane::set_tab_width`. -/
def setTabWidth (p : PaneState) (w : Nat) : PaneState :=
  { p with tabWidth := w }

/-- Source `Pane::set_wrap`: enabling wrap also forces the horizontal offset to 0. -/
def setWrap (p : PaneState) (b : Bool) : PaneState :=
  if b then { p with wrapsLine := b, curX := 0 } else { p with wrapsLine := b }

/-- Source `Pane::show_line_number`. -/
def showLineNumberSet (p : PaneState) (b : Bool) : PaneState :=
  { p with showLinenumber := b }

/-- Source `Pane::show_highlight`. -/
def showHighlightSet (p : PaneState) (b : Bool) : PaneState :=
  { p with showHighlight := b }

/-- Source `Pane::set_message`. -/
def setMessage (p : PaneState) (msg : Option String) : PaneState :=
  { p with message := msg.getD ("") }

/-- Source `Pane::load`: replace the buffer and reset the position to `(0, 0)`. -/
def paneLoad (p : PaneState) (buf : List String) : PaneState :=
  { p with linebuf := buf, curX := 0, curY := 0 }

/-- A pane in the state left by `Pane::new` (all display options at their
defaults, height `DEFAULT_PANE_HEIGHT = 1`), with the given terminal
size, after `load`ing the given buffer. -/
def mkPane (buf : List String) (tw th : Nat) : PaneState :=
  { linebuf := buf
    height := 1
    numofFlushedLines := 1
    numofSemanticFlushedLines := 1
    curX := 0
    curY := 0
    showLinenumber := false
    showHighlight := false
    message := ""
    tabWidth := 4
    wrapsLine := false
    termWidth := tw
    termHeight := th }

/-! ## Event orchestrator (`src/app.rs`)

`App` state.  The search engine is an external collaborator (regex /
literal matcher behind one capability interface); dispatch is
parameterized over a matcher `find : pattern → line → Option start`,
and the active pattern string (`searcher.as_str()`) is tracked in
`pattern`.  The file path, seek offset and pipe reader perform I/O only;
`read_buffer`'s effect is parameterized as the list `newLines` of lines
the reload appends.  `App.linebuf` and `Pane.linebuf` alias the same
`Rc<RefCell<..>>` after `pane.load`, so the model keeps the buffer in
`PaneState` alone. -/

structure AppState where
  showLinenumber : Bool
  followMode : Bool
  wrapsLine : Bool
  typingWord : Option String
  pattern : String
deriving DecidableEq, Repr

/-- Source `FOLLOWING_MESSAGE` (apostrophes written as `\x27`). -/
def FOLLOWING_MESSAGE : String :=
  "\x1b[7mwaiting for data... (press \x27F\x27 to abort)\x1b[0m"

/-- Source `FOLLOWING_HL_MESSAGE`. -/
def FOLLOWING_HL_MESSAGE : String := "\x1b[7mwaiting for data... \x1b[0m:"

/-- Source `App::mode_default_message`. -/
def modeDefaultMessage (a : AppState) : Option String :=
  if a.followMode = false then none
  else
    match a.typingWord with
    | some tw => some (FOLLOWING_HL_MESSAGE ++ "/" ++ tw)
    | none => some FOLLOWING_MESSAGE

/-- A matcher: given the active pattern and a line, the byte offset of the
first match start, if any (spec section 6 search-engine contract,
`find_first`). -/
def Matcher : Type := String → String → Option Nat

/-- Decide whether the pattern occupies the front of the line. -/
def charsMatchAt : List Char → List Char → Bool
  | _, [] => true
  | [], _ :: _ => false
  | c :: cs, d :: ds => c = d && charsMatchAt cs ds

/-- Scan for the first match position (in characters). -/
def planeFindGo (pat : List Char) : List Char → Nat → Option Nat
  | cs, i =>
      if charsMatchAt cs pat then some i
      else
        match cs with
        | [] => none
        | _ :: rest => planeFindGo pat rest (i + 1)

/-- Source `PlaneSearcher::find` (`src/search.rs`): literal substring search,
`str::find` returning the first match start (char offsets coincide with
byte offsets on the ASCII inputs used below). -/
def planeFind : Matcher := fun pat line => planeFindGo pat.data line.data 0

/-- Forward scan of `App::search` over the lines from index `base`. -/
def searchFwdGo (find : Matcher) (pat : String) :
    List String → Nat → Option (Nat × Nat)
  | [], _ => none
  | l :: ls, i =>
      match find pat l with
      | some s => some (s, i)
      | none => searchFwdGo find pat ls (i + 1)

/-- Source `App::search`: first matching line at or after `y`, returning
`(match start, line index)`; the source slices `linebuf[y..]`. -/
def appSearch (find : Matcher) (pat : String) (buf : List String) (y : Nat) :
    Option (Nat × Nat) :=
  searchFwdGo find pat (buf.drop y) y

/-- Backward scan of `App::search_rev`: the reversed slice `[0..=y]` with
the running offset subtracted from `y`. -/
def searchRevGo (find : Matcher) (pat : String) (y : Nat) :
    List String → Nat → Option (Nat × Nat)
  | [], _ => none
  | l :: ls, i =>
      match find pat l with
      | some s => some (s, y - i)
      | none => searchRevGo find pat y ls (i + 1)

/-- Source `App::search_rev`: last matching line at or before `y`. -/
def appSearchRev (find : Matcher) (pat : String) (buf : List String) (y : Nat) :
    Option (Nat × Nat) :=
  searchRevGo find pat y ((buf.take (y + 1)).reverse) 0

/-- Rust's `if let Some(x) = o { .. } else { .. }` with an `Option`-valued
body, as used by the search dispatch arms. -/
def ifLetSome {A B : Type} (o : Option A) (f : A → Option B) (d : Option B) :
    Option B :=
  match o with
  | some x => f x
  | none => d

/-- Source `App::handle_normal`: the normal-mode dispatch table.  Returns `none`
when a `u16`/`usize` underflow in the dispatched path panics.  `newLines`
is what `read_buffer` appends when the arm reloads the source.  Arms
absent from the source `match` (notably `QuitWithClear` and
`FileUpdated`) fall into the wildcard `_ => {}`; the `Quit` arm only
writes terminal output (`pane.quit()`). -/
def handleNormal (find : Matcher) (newLines : List String)
    (a : AppState) (p : PaneState) (e : PeepEvent) :
    Option (AppState × PaneState) :=
  match e with
  | .MoveDown n => (refresh (scrollDown p (.char n)).1).map fun q => (a, q)
  | .MoveUp n => (refresh (scrollUp p (.char n)).1).map fun q => (a, q)
  | .MoveLeft n => do
      let r ← scrollLeft p (.char n)
      let q ← refresh r.1
      some (a, q)
  | .MoveRight n => do
      let r ← scrollRight p (.char n)
      let q ← refresh r.1
      some (a, q)
  | .MoveDownHalfPages n => (refresh (scrollDown p (.halfPage n)).1).map fun q => (a, q)
  | .MoveUpHalfPages n => (refresh (scrollUp p (.halfPage n)).1).map fun q => (a, q)
  | .MoveLeftHalfPages n => do
      let r ← scrollLeft p (.halfPage n)
      let q ← refresh r.1
      some (a, q)
  | .MoveRightHalfPages n => do
      let r ← scrollRight p (.halfPage n)
      let q ← refresh r.1
      some (a, q)
  | .MoveDownPages n => (refresh (scrollDown p (.page n)).1).map fun q => (a, q)
  | .MoveUpPages n => (refresh (scrollUp p (.page n)).1).map fun q => (a, q)
  | .MoveToHeadOfLine => (refresh (gotoHeadOfLine p).1).map fun q => (a, q)
  | .MoveToEndOfLine => do
      let r ← gotoTailOfLine p
      let q ← refresh r.1
      some (a, q)
  | .MoveToTopOfLines => (refresh (gotoTopOfLines p).1).map fun q => (a, q)
  | .MoveToBottomOfLines => (refresh (gotoBottomOfLines p).1).map fun q => (a, q)
  | .MoveToLineNumber n => do
      let r ← gotoAbsoluteLine p n
      let q ← refresh r.1
      some (a, q)
  | .ToggleLineNumberPrinting =>
      let a2 := { a with showLinenumber := !a.showLinenumber }
      (refresh (showLineNumberSet p a2.showLinenumber)).map fun q => (a2, q)
  | .ToggleLineWraps =>
      let a2 := { a with wrapsLine := !a.wrapsLine }
      (refresh (setWrap p a2.wrapsLine)).map fun q => (a2, q)
  | .IncrementLines n => do
      let r ← incrementHeight p n
      let q ← refresh r.1
      some (a, q)
  | .DecrementLines n => do
      let r ← decrementHeight p n
      let q ← refresh r.1
      some (a, q)
  | .SetNumOfLines n => do
      let r ← setHeight p n
      let q ← refresh r.1
      some (a, q)
  | .SearchIncremental s =>
      let a2 := { a with typingWord := some s, pattern := s }
      let p1 := setMessage p (some ("/" ++ s))
      if s = "" then
        (refresh (showHighlightSet p1 false)).map fun q => (a2, q)
      else do
        let p2 ← ifLetSome (appSearch find s p1.linebuf p1.curY)
          (fun pos => (gotoAbsoluteLine p1 pos.2).map fun r => r.1) (some p1)
        let q ← refresh (showHighlightSet p2 true)
        some (a2, q)
  | .SearchTrigger =>
      let a2 := { a with typingWord := none }
      (refresh (setMessage p (modeDefaultMessage a2))).map fun q => (a2, q)
  | .SearchNext => do
      let lastIdx ← checkedSub p.linebuf.length 1
      let nextY := if p.curY = lastIdx then lastIdx else p.curY + 1
      if a.pattern = "" then
        let q ← refresh (setMessage (showHighlightSet p false) (modeDefaultMessage a))
        some (a, q)
      else do
        let p2 ← ifLetSome (appSearch find a.pattern p.linebuf nextY)
          (fun pos => (gotoAbsoluteLine p pos.2).map fun r => r.1) (some p)
        let q ← refresh (setMessage (showHighlightSet p2 true) (modeDefaultMessage a))
        some (a, q)
  | .SearchPrev =>
      let nextY := if p.curY = 0 then 0 else p.curY - 1
      if a.pattern = "" then do
        let q ← refresh (setMessage (showHighlightSet p false) (modeDefaultMessage a))
        some (a, q)
      else do
        let p2 ← ifLetSome (appSearchRev find a.pattern p.linebuf nextY)
          (fun pos => (gotoAbsoluteLine p pos.2).map fun r => r.1) (some p)
        let q ← refresh (setMessage (showHighlightSet p2 true) (modeDefaultMessage a))
        some (a, q)
  | .Message s => (refresh (setMessage p s)).map fun q => (a, q)
  | .Cancel =>
      let a2 := { a with typingWord := none }
      (refresh (showHighlightSet (setMessage p (modeDefaultMessage a2)) false)).map
        fun q => (a2, q)
  | .FollowMode =>
      let a2 := { a with followMode := true }
      let p1 := { p with linebuf := p.linebuf ++ newLines }
      let p2 := (gotoBottomOfLines p1).1
      (refresh (setMessage p2 (modeDefaultMessage a2))).map fun q => (a2, q)
  | .Quit => some (a, p)
  | .SigInt => some (a, p)
  | _ => some (a, p)

/-- Source `App::handle_follow`: the follow-mode dispatch table.  There is no
`ToggleLineWraps` arm: the wrap toggle falls into the wildcard.  (No arm
searches, so the matcher is unused here.) -/
def handleFollow (_find : Matcher) (newLines : List String)
    (a : AppState) (p : PaneState) (e : PeepEvent) :
    Option (AppState × PaneState) :=
  match e with
  | .ToggleLineNumberPrinting =>
      let a2 := { a with showLinenumber := !a.showLinenumber }
      (refresh (showLineNumberSet p a2.showLinenumber)).map fun q => (a2, q)
  | .IncrementLines n => do
      let r ← incrementHeight p n
      let q ← refresh r.1
      some (a, q)
  | .DecrementLines n => do
      let r ← decrementHeight p n
      let q ← refresh r.1
      some (a, q)
  | .SetNumOfLines n => do
      let r ← setHeight p n
      let q ← refresh r.1
      some (a, q)
  | .SearchIncremental s =>
      let a2 := { a with typingWord := some s, pattern := s }
      let p1 := setMessage p (some (FOLLOWING_HL_MESSAGE ++ "/" ++ s))
      if s = "" then
        (refresh (showHighlightSet p1 false)).map fun q => (a2, q)
      else
        (refresh (showHighlightSet p1 true)).map fun q => (a2, q)
  | .SearchTrigger =>
      let a2 := { a with typingWord := none }
      (refresh (setMessage p (modeDefaultMessage a2))).map fun q => (a2, q)
  | .Cancel =>
      let a2 := { a with typingWord := none }
      (refresh (showHighlightSet (setMessage p (modeDefaultMessage a2)) false)).map
        fun q => (a2, q)
  | .FileUpdated =>
      let p1 := { p with linebuf := p.linebuf ++ newLines }
      let p2 := (gotoBottomOfLines p1).1
      (refresh (setMessage p2 (modeDefaultMessage a))).map fun q => (a, q)
  | .FollowMode =>
      let a2 := { a with followMode := false }
      (refresh (setMessage p (modeDefaultMessage a2))).map fun q => (a2, q)
  | .Quit => some (a, p)
  | .SigInt => some (a, p)
  | _ => some (a, p)

/-- The consumer loop of `App::run` over a finite event sequence: dispatch
by mode, then break exactly when the received event equals `Quit`.  The
`Bool` records whether the loop terminated through that break. -/
def runLoop (find : Matcher) (newLines : List String)
    (a : AppState) (p : PaneState) :
    List PeepEvent → Option (AppState × PaneState × Bool)
  | [] => some (a, p, false)
  | e :: rest => do
      let r ←
        if a.followMode = false then handleNormal find newLines a p e
        else handleFollow find newLines a p e
      if e = .Quit then some (r.1, r.2, true)
      else runLoop find newLines r.1 r.2 rest

/-- Source `App::new` field defaults relevant to dispatch (normal mode, no
pattern typed yet). -/
def appNew : AppState :=
  { showLinenumber := false
    followMode := false
    wrapsLine := false
    typingWord := none
    pattern := "" }

/-! ## Concrete scenario states used by witnesses and counterexamples -/

/-- Buffer of 20 empty lines on a 2x5 terminal, pane height set to 4,
then one redraw (the scenario of the scroll-limit claim). -/
def pane20after : Option PaneState := do
  let r ← setHeight (paneLoad (mkPane [] 2 5) (List.replicate 20 "")) 4
  refresh r.1

/-- Same buffer, but positioned at line 18 via `goto_absolute_line`
(reachable by the `19g` key sequence, `MoveToLineNumber 18`) and then
redrawn: the last redraw flushes only 2 logical lines while the pane
height is 4. -/
def pane20atY18 : Option PaneState := do
  let r ← setHeight (paneLoad (mkPane [] 2 5) (List.replicate 20 "")) 4
  let g ← gotoAbsoluteLine r.1 18
  refresh g.1

/-- A pane whose visible line is empty while the horizontal offset is 3:
one 40-column line scrolled past, then positioned on the empty line
(the situation of the `scroll_right` underflow claim). -/
def paneShortVisible : PaneState :=
  { mkPane ["0123456789012345678901234567890123456789", ""] 20 5 with
    curX := 3, curY := 1 }

/-! ## Spec-worded definitions (for comparison with the code) -/

/-- Follows the spec's words for `SearchNext`: the first matching line
strictly after the current top line, no wrap-around — when no match
exists forward, the position is unchanged. -/
def specSearchNextY (find : Matcher) (pat : String) (buf : List String)
    (y : Nat) : Nat :=
  match appSearch find pat buf (y + 1) with
  | some pos => pos.2
  | none => y

/-- Follows the spec's words for `SearchPrev`: the last matching line
strictly before the current top line, no wrap-around. -/
def specSearchPrevY (find : Matcher) (pat : String) (buf : List String)
    (y : Nat) : Nat :=
  if y = 0 then y
  else
    match appSearchRev find pat buf (y - 1) with
    | some pos => pos.2
    | none => y

/-- The events `App::handle_follow` has a non-wildcard, non-no-op arm for
(the follow-mode "accepted" set).  `Quit` and `SigInt` arms exist in the
source but only write terminal output / do nothing, so they are
state-level no-ops like the wildcard. -/
def followAccepted : PeepEvent → Bool
  | .ToggleLineNumberPrinting => true
  | .IncrementLines _ => true
  | .DecrementLines _ => true
  | .SetNumOfLines _ => true
  | .SearchIncremental _ => true
  | .SearchTrigger => true
  | .Cancel => true
  | .FileUpdated => true
  | .FollowMode => true
  | _ => false

/-! ## Shared lemmas -/

theorem checkedSub_some (a b : Nat) (h : b ≤ a) :
    checkedSub a b = some (a - b) := by
  simp [checkedSub, h]

theorem checkedSub_none (a b : Nat) (h : a < b) :
    checkedSub a b = none := by
  simp [checkedSub]
  omega

theorem refresh_fields (p q : PaneState) (h : refresh p = some q) :
    q.curX = p.curX ∧ q.curY = p.curY ∧ q.linebuf = p.linebuf ∧
    q.height = p.height ∧ q.showLinenumber = p.showLinenumber ∧
    q.showHighlight = p.showHighlight ∧ q.wrapsLine = p.wrapsLine ∧
    q.message = p.message ∧ q.termWidth = p.termWidth ∧
    q.termHeight = p.termHeight := by
  rcases hro : rangeOfVisibleLines p with _ | r <;>
    simp [refresh, hro] at h
  subst h
  simp

theorem refresh_isSome (p : PaneState) (h : p.curY ≤ p.linebuf.length) :
    ∃ q, refresh p = some q := by
  simp [refresh, rangeOfVisibleLines, checkedSub, h]

theorem gotoAbsoluteLine_lt (p : PaneState) (n : Nat) (h : n < p.linebuf.length) :
    gotoAbsoluteLine p n = some ({ p with curY := n }, n) := by
  have h1 : 1 ≤ p.linebuf.length := by omega
  rw [gotoAbsoluteLine, checkedSub_some _ _ h1]
  simp
  omega

theorem searchFwdGo_some_bounds (find : Matcher) (pat : String) :
    ∀ (ls : List String) (i s j : Nat),
      searchFwdGo find pat ls i = some (s, j) → i ≤ j ∧ j < i + ls.length := by
  intro ls
  induction ls with
  | nil => intro i s j h; simp [searchFwdGo] at h
  | cons l tl ih =>
      intro i s j h
      rw [searchFwdGo] at h
      rcases hf : find pat l with _ | v <;> rw [hf] at h
      · have := ih (i + 1) s j h
        simp only [List.length_cons]
        omega
      · simp at h
        simp only [List.length_cons]
        omega

theorem appSearch_some_bounds (find : Matcher) (pat : String)
    (buf : List String) (y s j : Nat) (hy : y ≤ buf.length)
    (h : appSearch find pat buf y = some (s, j)) :
    y ≤ j ∧ j < buf.length := by
  have hb := searchFwdGo_some_bounds find pat (buf.drop y) y s j h
  rw [List.length_drop] at hb
  omega

theorem appSearch_none_of_ge (find : Matcher) (pat : String)
    (buf : List String) (y : Nat) (h : buf.length ≤ y) :
    appSearch find pat buf y = none := by
  rw [appSearch, List.drop_eq_nil_of_le h, searchFwdGo]

theorem searchRevGo_some_le (find : Matcher) (pat : String) (y : Nat) :
    ∀ (ls : List String) (i s j : Nat),
      searchRevGo find pat y ls i = some (s, j) → j ≤ y := by
  intro ls
  induction ls with
  | nil => intro i s j h; simp [searchRevGo] at h
  | cons l tl ih =>
      intro i s j h
      rw [searchRevGo] at h
      rcases hf : find pat l with _ | v <;> rw [hf] at h
      · exact ih (i + 1) s j h
      · simp at h
        omega

theorem appSearchRev_some_le (find : Matcher) (pat : String)
    (buf : List String) (y s j : Nat)
    (h : appSearchRev find pat buf y = some (s, j)) : j ≤ y :=
  searchRevGo_some_le find pat y _ 0 s j h

theorem ifLetSome_some {A B : Type} (x : A) (f : A → Option B) (d : Option B) :
    ifLetSome (some x) f d = f x := rfl

theorem ifLetSome_none {A B : Type} (f : A → Option B) (d : Option B) :
    ifLetSome none f d = d := rfl

/-- The common tail of the `SearchNext`/`SearchPrev` dispatch arms:
highlight on, restore the default message, redraw; the redraw succeeds
and preserves both viewport coordinates. -/
theorem searchArmTail (a : AppState) (p2 : PaneState)
    (hle : p2.curY ≤ p2.linebuf.length) :
    (Option.map (fun r : AppState × PaneState => (r.2.curX, r.2.curY))
      (do
        let q ← refresh (setMessage (showHighlightSet p2 true)
          (modeDefaultMessage a))
        some (a, q)))
      = some (p2.curX, p2.curY) := by
  obtain ⟨q, hq⟩ := refresh_isSome
    (setMessage (showHighlightSet p2 true) (modeDefaultMessage a))
    (by simpa [setMessage, showHighlightSet] using hle)
  rw [hq]
  obtain ⟨h1, h2, -⟩ := refresh_fields _ _ hq
  simp [h1, h2, setMessage, showHighlightSet]

/-! ## Claim theorems -/

/-- C1: the consumer loop of `App::run` breaks only on `Quit`; a
`QuitWithClear` event is dispatched to the wildcard arm (no state
change, no erase) and the loop keeps running, while `Quit` does break
the loop.  This refutes the claim that `QuitWithClear` terminates the
consumer loop. -/
theorem quit_with_clear_is_ignored :
    runLoop planeFind [] appNew (mkPane ["x"] 10 10) [.QuitWithClear]
      = some (appNew, mkPane ["x"] 10 10, false) ∧
    (runLoop planeFind [] appNew (mkPane ["x"] 10 10) [.Quit, .MoveDown 1]).map
      (fun r => r.2.2) = some true := by
  decide

/-- C2: digits typed while entering a repeat count are pushed onto the
`searching_keys` buffer and survive the transition back to `Ready`, so
after `2 j / a` the incremental-search event carries `"2a"`, not the
`"a"` typed since `/`.  This refutes the claimed clearing invariant. -/
theorem numbering_digits_leak_into_search :
    (runKeys keyBindNew [.char '2', .char 'j', .char '/', .char 'a']).2
      = [.MoveDown 2, .SearchIncremental (""), .SearchIncremental ("2a")] ∧
    (.SearchIncremental ("2a") : PeepEvent) ≠ .SearchIncremental ("a") := by
  decide

/-- C3 counterexample: in the 20-line buffer positioned at line 18 after a
redraw, the pane height is 4 and `scroll_up(Page(1))` returns 2 (the two
logical lines flushed by the last redraw), not the height-resolved
`min (4 * 1) 18 = 4` the claim predicts. -/
theorem scroll_up_ignores_pane_height :
    (pane20atY18.map fun p =>
      ((paneSize p).2, p.curY, (scrollUp p (.page 1)).2,
       (scrollUp p (.page 1)).1.curY))
      = some (4, 18, 2, 16) ∧
    ¬ (2 : Nat) = min (4 * 1) 18 := by
  decide

/-- C3 amended: `scroll_up`/`scroll_down` resolve the step against
`numof_semantic_flushed_lines` (the count of logical lines flushed by
the last redraw — equal to the pane height whenever the last redraw
filled the pane), clamp against the buffer bounds (`0` below,
`limit_bottom_y` above), apply the motion, and return the actual
distance moved. -/
theorem scroll_resolves_against_flushed_lines :
    ∀ (p : PaneState) (ss : ScrollStep),
      scrollUp p ss =
        ({ p with curY :=
            (p.curY - min (toNumofChars ss p.numofSemanticFlushedLines) p.curY) },
         min (toNumofChars ss p.numofSemanticFlushedLines) p.curY) ∧
      scrollDown p ss =
        ({ p with curY :=
            (min (p.curY + toNumofChars ss p.numofSemanticFlushedLines)
              (max p.curY (limitBottomY p))) },
         min (toNumofChars ss p.numofSemanticFlushedLines)
           (limitBottomY p - p.curY)) ∧
      p.curY - (scrollUp p ss).1.curY = (scrollUp p ss).2 ∧
      (scrollDown p ss).1.curY - p.curY = (scrollDown p ss).2 ∧
      (∀ n h, toNumofChars (.char n) h = n ∧
              toNumofChars (.halfPage n) h = h * n / 2 ∧
              toNumofChars (.page n) h = h * n) := by
  intro p ss
  refine ⟨?_, ?_, ?_, ?_, fun n h => ⟨rfl, rfl, rfl⟩⟩
  · simp only [scrollUp]
    have h1 : (if toNumofChars ss p.numofSemanticFlushedLines < p.curY then
        toNumofChars ss p.numofSemanticFlushedLines else p.curY)
        = min (toNumofChars ss p.numofSemanticFlushedLines) p.curY := by
      split_ifs <;> omega
    rw [h1]
  · simp only [scrollDown]
    have h1 : (if p.curY + toNumofChars ss p.numofSemanticFlushedLines <
          limitBottomY p then toNumofChars ss p.numofSemanticFlushedLines
        else if p.curY < limitBottomY p then limitBottomY p - p.curY else 0)
        = min (toNumofChars ss p.numofSemanticFlushedLines)
            (limitBottomY p - p.curY) := by
      split_ifs <;> omega
    rw [h1]
    have h2 : p.curY + min (toNumofChars ss p.numofSemanticFlushedLines)
        (limitBottomY p - p.curY)
        = min (p.curY + toNumofChars ss p.numofSemanticFlushedLines)
            (max p.curY (limitBottomY p)) := by
      omega
    rw [h2]
  · simp only [scrollUp]
    split_ifs <;> omega
  · simp only [scrollDown]
    split_ifs <;> omega

/-- C4 counterexample: dispatching the wrap toggle in follow mode leaves
the state completely unchanged (wildcard arm) — the wrap option stays
off — refuting the claim that the wrap toggle is part of the accepted
follow-mode command set. -/
theorem follow_mode_ignores_wrap_toggle :
    handleFollow planeFind [] { appNew with followMode := true }
        (mkPane ["x"] 10 10) .ToggleLineWraps
      = some ({ appNew with followMode := true }, mkPane ["x"] 10 10) ∧
    (handleFollow planeFind [] { appNew with followMode := true }
        (mkPane ["x"] 10 10) .ToggleLineWraps).map (fun r => r.2.wrapsLine)
      = some false := by
  decide

/-- C4 amended: in follow mode the dispatcher accepts exactly the reduced
set `followAccepted` — height adjustment, the line-number toggle (but
NOT the wrap toggle), incremental highlight-only search that does not
reposition the viewport, search-commit and cancel, `FileUpdated` (which
appends the newly read lines and jumps to the buffer end), and
`FollowMode` (which leaves follow mode) — while every other command
(all cursor motions, the wrap toggle, quit, interrupt) leaves the state
unchanged. -/
theorem handleFollow_reduced_command_set :
    ∀ (find : Matcher) (nl : List String) (a : AppState) (p : PaneState),
      (∀ e, followAccepted e = false → handleFollow find nl a p e = some (a, p)) ∧
      (∀ s q, handleFollow find nl a p (.SearchIncremental s) = some q →
         q.2.curX = p.curX ∧ q.2.curY = p.curY ∧ q.2.linebuf = p.linebuf ∧
         q.2.showHighlight = !(s = "")) ∧
      (∀ q, handleFollow find nl a p .FileUpdated = some q →
         q.2.linebuf = p.linebuf ++ nl ∧ q.2.curX = 0 ∧
         q.2.curY = limitBottomY { p with linebuf := p.linebuf ++ nl } ∧
         q.1 = a) ∧
      (∀ q, handleFollow find nl a p .FollowMode = some q →
         q.1.followMode = false ∧ q.2.curX = p.curX ∧ q.2.curY = p.curY) ∧
      (∀ n q, handleFollow find nl a p (.SetNumOfLines n) = some q →
         ∃ r, setHeight p n = some r ∧ q.2.height = r.1.height) ∧
      (∀ n q, handleFollow find nl a p (.IncrementLines n) = some q →
         ∃ r, incrementHeight p n = some r ∧ q.2.height = r.1.height) ∧
      (∀ n q, handleFollow find nl a p (.DecrementLines n) = some q →
         ∃ r, decrementHeight p n = some r ∧ q.2.height = r.1.height) ∧
      (∀ q, handleFollow find nl a p .ToggleLineNumberPrinting = some q →
         q.1.showLinenumber = !a.showLinenumber ∧
         q.2.showLinenumber = !a.showLinenumber) := by
  intro find nl a p
  refine ⟨?_, ?_, ?_, ?_, ?_, ?_, ?_, ?_⟩
  · intro e he
    cases e <;> first
      | rfl
      | (exfalso; simp [followAccepted] at he)
  · intro s q h
    rw [handleFollow] at h
    by_cases hs : s = "" <;> simp only [hs, if_pos, if_neg, reduceIte] at h
    · rcases hr : refresh (showHighlightSet (setMessage p
          (some (FOLLOWING_HL_MESSAGE ++ "/" ++ ""))) false) with _ | q2 <;>
        rw [hr] at h <;> simp at h
      obtain ⟨hf1, hf2, hf3, _, _, hf6, _⟩ := refresh_fields _ _ hr
      subst h
      simp_all [setMessage, showHighlightSet]
    · rcases hr : refresh (showHighlightSet (setMessage p
          (some (FOLLOWING_HL_MESSAGE ++ "/" ++ s))) true) with _ | q2 <;>
        rw [hr] at h <;> simp at h
      obtain ⟨hf1, hf2, hf3, _, _, hf6, _⟩ := refresh_fields _ _ hr
      subst h
      simp_all [setMessage, showHighlightSet]
  · intro q h
    rw [handleFollow] at h
    rcases hr : refresh (setMessage ((gotoBottomOfLines
        { p with linebuf := p.linebuf ++ nl }).1) (modeDefaultMessage a))
      with _ | q2 <;> rw [hr] at h <;> simp at h
    obtain ⟨hf1, hf2, hf3, _⟩ := refresh_fields _ _ hr
    subst h
    simp_all [setMessage, gotoBottomOfLines]
  · intro q h
    rw [handleFollow] at h
    rcases hr : refresh (setMessage p
        (modeDefaultMessage { a with followMode := false }))
      with _ | q2 <;> rw [hr] at h <;> simp at h
    obtain ⟨hf1, hf2, _⟩ := refresh_fields _ _ hr
    subst h
    simp_all [setMessage]
  · intro n q h
    rw [handleFollow] at h
    rcases hsh : setHeight p n with _ | r <;> rw [hsh] at h <;> simp at h
    rcases hr : refresh r.1 with _ | q2 <;> rw [hr] at h <;> simp at h
    obtain ⟨_, _, _, hf4, _⟩ := refresh_fields _ _ hr
    subst h
    exact ⟨r, rfl, hf4⟩
  · intro n q h
    rw [handleFollow] at h
    rcases hsh : incrementHeight p n with _ | r <;> rw [hsh] at h <;> simp at h
    rcases hr : refresh r.1 with _ | q2 <;> rw [hr] at h <;> simp at h
    obtain ⟨_, _, _, hf4, _⟩ := refresh_fields _ _ hr
    subst h
    exact ⟨r, rfl, hf4⟩
  · intro n q h
    rw [handleFollow] at h
    rcases hsh : decrementHeight p n with _ | r <;> rw [hsh] at h <;> simp at h
    rcases hr : refresh r.1 with _ | q2 <;> rw [hr] at h <;> simp at h
    obtain ⟨_, _, _, hf4, _⟩ := refresh_fields _ _ hr
    subst h
    exact ⟨r, rfl, hf4⟩
  · intro q h
    rw [handleFollow] at h
    rcases hr : refresh (showLineNumberSet p (!a.showLinenumber))
      with _ | q2 <;> rw [hr] at h <;> simp at h
    obtain ⟨_, _, _, _, hf5, _⟩ := refresh_fields _ _ hr
    subst h
    simp_all [showLineNumberSet]

/-- C4 witness: a cursor-motion command in follow mode is rejected and
leaves the state unchanged. -/
theorem handleFollow_reduced_command_set_witness :
    followAccepted (.MoveDown 3) = false ∧
    handleFollow planeFind [] { appNew with followMode := true }
        (mkPane ["x"] 10 10) (.MoveDown 3)
      = some ({ appNew with followMode := true }, mkPane ["x"] 10 10) :=
  ⟨rfl, (handleFollow_reduced_command_set planeFind []
      { appNew with followMode := true } (mkPane ["x"] 10 10)).1
    (.MoveDown 3) rfl⟩

/-- C5: the repeat-count combination rule — a pending count of 0 resolves
to 1 for every motion/size command (so `2 j` emits exactly the single
command `MoveDown 2`); for the top/bottom jumps a count of 0 keeps the
bare jump while a nonzero count `n` redirects to `MoveToLineNumber
(n - 1)`; `=` with a count of 0 emits nothing, while `1 0 =` emits
`SetNumOfLines 10`. -/
theorem repeat_count_combination_rule :
    (∀ m, combineCommand 0 (.MoveDown m) = some (.MoveDown 1) ∧
          combineCommand 0 (.MoveUp m) = some (.MoveUp 1) ∧
          combineCommand 0 (.MoveLeft m) = some (.MoveLeft 1) ∧
          combineCommand 0 (.MoveRight m) = some (.MoveRight 1) ∧
          combineCommand 0 (.MoveDownHalfPages m) = some (.MoveDownHalfPages 1) ∧
          combineCommand 0 (.MoveUpHalfPages m) = some (.MoveUpHalfPages 1) ∧
          combineCommand 0 (.MoveLeftHalfPages m) = some (.MoveLeftHalfPages 1) ∧
          combineCommand 0 (.MoveRightHalfPages m) = some (.MoveRightHalfPages 1) ∧
          combineCommand 0 (.MoveDownPages m) = some (.MoveDownPages 1) ∧
          combineCommand 0 (.MoveUpPages m) = some (.MoveUpPages 1) ∧
          combineCommand 0 (.IncrementLines m) = some (.IncrementLines 1) ∧
          combineCommand 0 (.DecrementLines m) = some (.DecrementLines 1)) ∧
    (runKeys keyBindNew [.char '2', .char 'j']).2 = [.MoveDown 2] ∧
    (∀ n, n ≠ 0 →
       combineCommand n .MoveToTopOfLines = some (.MoveToLineNumber (n - 1)) ∧
       combineCommand n .MoveToBottomOfLines = some (.MoveToLineNumber (n - 1))) ∧
    combineCommand 0 .MoveToTopOfLines = some .MoveToTopOfLines ∧
    combineCommand 0 .MoveToBottomOfLines = some .MoveToBottomOfLines ∧
    (∀ m, combineCommand 0 (.SetNumOfLines m) = none) ∧
    (runKeys keyBindNew [.char '1', .char '0', .char '=']).2
      = [.SetNumOfLines 10] := by
  refine ⟨fun m => ?_, by decide, fun n hn => ?_, by decide, by decide,
    fun m => rfl, by decide⟩
  · exact ⟨rfl, rfl, rfl, rfl, rfl, rfl, rfl, rfl, rfl, rfl, rfl, rfl⟩
  · simp [combineCommand, hn]

/-- C5 witness. -/
theorem repeat_count_combination_rule_witness :
    combineCommand 7 .MoveToTopOfLines = some (.MoveToLineNumber 6) ∧
    combineCommand 7 .MoveToBottomOfLines = some (.MoveToLineNumber 6) :=
  repeat_count_combination_rule.2.2.1 7 (by decide)

/-- C6: in non-wrap mode the bottom scroll limit is
`buffer_len - pane_height` when the buffer is taller than the pane and 0
otherwise; in the 20-empty-line/height-4 scenario (after a redraw)
`scroll_down(Page(10))` returns 16 leaving `y = 16`, and a further
`scroll_down(Page(1))` returns 0 leaving the position unchanged. -/
theorem limit_bottom_y_nonwrap_and_page_scenario :
    (∀ p : PaneState, p.wrapsLine = false →
       limitBottomY p =
         if (paneSize p).2 < p.linebuf.length then
           p.linebuf.length - (paneSize p).2
         else 0) ∧
    (pane20after.map fun p =>
      ((paneSize p).2, (scrollDown p (.page 10)).2,
       (scrollDown p (.page 10)).1.curY,
       (scrollDown (scrollDown p (.page 10)).1 (.page 1)).2,
       (scrollDown (scrollDown p (.page 10)).1 (.page 1)).1.curY))
      = some (4, 16, 16, 0, 16) := by
  refine ⟨fun p h => ?_, by decide⟩
  simp [limitBottomY, h]

/-- C6 witness: the general clamp rule evaluated on the scenario pane. -/
theorem limit_bottom_y_nonwrap_witness :
    limitBottomY { mkPane (List.replicate 20 "") 2 5 with height := 4 } = 16 :=
  (limit_bottom_y_nonwrap_and_page_scenario.1
    { mkPane (List.replicate 20 "") 2 5 with height := 4 } rfl).trans (by decide)

/-- C8: `set_height(n)` applies and returns `clamp(n, 1, terminal_rows - 1)`,
the reported pane height afterwards equals that value, applying
`set_height` again to the returned value is a fixed point, and
`increment_height`/`decrement_height` delegate to `set_height`,
saturating at the floor of 1. -/
theorem set_height_clamp_and_fixed_point :
    ∀ (p : PaneState) (n : Nat), 2 ≤ p.termHeight →
      setHeight p n =
        some ({ p with height := max 1 (min n (p.termHeight - 1)) },
              max 1 (min n (p.termHeight - 1))) ∧
      (paneSize { p with height := max 1 (min n (p.termHeight - 1)) }).2
        = max 1 (min n (p.termHeight - 1)) ∧
      setHeight { p with height := max 1 (min n (p.termHeight - 1)) }
          (max 1 (min n (p.termHeight - 1)))
        = some ({ p with height := max 1 (min n (p.termHeight - 1)) },
                max 1 (min n (p.termHeight - 1))) ∧
      incrementHeight p n = setHeight p (p.height + n) ∧
      decrementHeight p n = setHeight p (if n < p.height then p.height - n else 1) ∧
      (∀ q r, decrementHeight p n = some (q, r) → 1 ≤ r ∧ q.height = r) := by
  intro p n h2
  have hms : checkedSub p.termHeight MESSAGE_BAR_HEIGHT
      = some (p.termHeight - 1) :=
    checkedSub_some _ _ (by unfold MESSAGE_BAR_HEIGHT; omega)
  have hcl : (if n = 0 then 1 else if p.termHeight - 1 < n then
      p.termHeight - 1 else n) = max 1 (min n (p.termHeight - 1)) := by
    split_ifs <;> omega
  refine ⟨?_, ?_, ?_, rfl, rfl, ?_⟩
  · rw [setHeight, hms]
    simp [hcl]
  · simp [paneSize]
    omega
  · rw [setHeight]
    simp only [hms, Option.map_some']
    have hcl2 : (if max 1 (min n (p.termHeight - 1)) = 0 then 1
        else if p.termHeight - 1 < max 1 (min n (p.termHeight - 1)) then
          p.termHeight - 1
        else max 1 (min n (p.termHeight - 1)))
        = max 1 (min n (p.termHeight - 1)) := by
      split_ifs <;> omega
    rw [hcl2]
  · intro q r h
    rw [decrementHeight, setHeight, hms] at h
    simp only [Option.map_some', Option.some.injEq, Prod.mk.injEq] at h
    obtain ⟨hq, hr⟩ := h
    subst hr
    constructor
    · split_ifs <;> omega
    · rw [← hq]

/-- C8 witness: a 10-row terminal clamps a requested height of 15 to 9. -/
theorem set_height_clamp_and_fixed_point_witness :
    setHeight (mkPane [] 10 10) 15
      = some ({ mkPane [] 10 10 with height := 9 }, 9) :=
  ((set_height_clamp_and_fixed_point (mkPane [] 10 10) 15 (by decide)).1).trans
    (by decide)

/-- C9: `goto_absolute_line(n)` is total exactly on non-empty buffers,
where it sets and returns `min(n, buffer_len - 1)`; on an empty buffer
the unsigned `buffer_len - 1` underflows (`none`), and the same
unguarded `len - 1` underflow aborts the `SearchNext` dispatch path. -/
theorem goto_absolute_line_totality :
    ∀ (p : PaneState) (n : Nat) (find : Matcher) (a : AppState),
      (p.linebuf ≠ [] →
         gotoAbsoluteLine p n =
           some ({ p with curY := min n (p.linebuf.length - 1) },
                 min n (p.linebuf.length - 1))) ∧
      (p.linebuf = [] →
         gotoAbsoluteLine p n = none ∧
         handleNormal find [] a p .SearchNext = none) := by
  intro p n find a
  constructor
  · intro h
    have hl : 1 ≤ p.linebuf.length := List.length_pos.mpr h
    rw [gotoAbsoluteLine, checkedSub_some _ _ hl]
    have hy : (if p.linebuf.length ≤ n then p.linebuf.length - 1 else n)
        = min n (p.linebuf.length - 1) := by
      split_ifs <;> omega
    simp [hy]
  · intro h
    have hl : p.linebuf.length = 0 := by simp [h]
    constructor
    · rw [gotoAbsoluteLine, hl, checkedSub_none _ _ (by omega)]
      rfl
    · rw [handleNormal, hl, checkedSub_none _ _ (by omega)]
      rfl

/-- C9 witness: on a three-line buffer `goto_absolute_line 7` clamps to
line 2; on the empty buffer both paths underflow. -/
theorem goto_absolute_line_totality_witness :
    gotoAbsoluteLine (mkPane ["a", "b", "c"] 10 10) 7
      = some ({ mkPane ["a", "b", "c"] 10 10 with curY := 2 }, 2) ∧
    gotoAbsoluteLine (mkPane [] 10 10) 7 = none ∧
    handleNormal planeFind [] appNew (mkPane [] 10 10) .SearchNext = none :=
  ⟨((goto_absolute_line_totality (mkPane ["a", "b", "c"] 10 10) 7 planeFind
      appNew).1 (by decide)).trans (by decide),
   (goto_absolute_line_totality (mkPane [] 10 10) 7 planeFind appNew).2 rfl⟩

/-- C10: `scroll_right` returns `limit_right_x(x + step, max_width) - x`
as the actual distance; that `u16` subtraction makes the call total
exactly when the current offset does not exceed the clamped target (for
instance when the visible lines plus the right margin fit in the
printable width while `x > 0`, the clamp snaps to 0 and the subtraction
underflows). -/
theorem scroll_right_totality :
    ∀ (p : PaneState) (ss : ScrollStep) (pw : Nat) (r : Nat × Nat) (tx : Nat),
      p.wrapsLine = false →
      panePrintableWidth p = some pw →
      rangeOfVisibleLines p = some r →
      limitRightX p (p.curX + toNumofChars ss pw)
          (maxWidthOfVisibleLines p r) = some tx →
      (p.curX ≤ tx →
         scrollRight p ss = some ({ p with curX := tx }, tx - p.curX)) ∧
      (tx < p.curX → scrollRight p ss = none) := by
  intro p ss pw r tx hw hpw hr htx
  constructor <;> intro hx
  · rw [scrollRight]
    simp [hw, hpw, hr, htx, checkedSub_some _ _ hx]
  · rw [scrollRight]
    simp [hw, hpw, hr, htx, checkedSub_none _ _ hx]

/-- C10 witness: with only an empty line visible and `x = 3`, the clamp
target is 0 and `scroll_right` underflows; with the long line visible
and `x = 0` it moves right normally. -/
theorem scroll_right_totality_witness :
    scrollRight paneShortVisible (.char 1) = none ∧
    scrollRight (mkPane ["0123456789012345678901234567890123456789"] 4 2)
        (.char 1)
      = some ({ mkPane ["0123456789012345678901234567890123456789"] 4 2 with
                curX := 1 }, 1) :=
  ⟨(scroll_right_totality paneShortVisible (.char 1) 20 (1, 2) 0 rfl
      (by decide) (by decide) (by decide)).2 (by decide),
   ((scroll_right_totality
      (mkPane ["0123456789012345678901234567890123456789"] 4 2) (.char 1)
      4 (0, 1) 1 rfl (by decide) (by decide) (by decide)).1
        (by decide)).trans (by decide)⟩

/-- C7: for every matcher, non-empty buffer, active (non-empty) pattern
and in-range position, the `SearchNext` dispatch lands on the first
matching line strictly after the current top line and `SearchPrev` on
the last matching line strictly before it, with no wrap-around: when no
match exists in the searched direction the viewport position (both
coordinates) is unchanged — exactly the spec-worded `specSearchNextY` /
`specSearchPrevY`. -/
theorem search_next_prev_follow_spec :
    ∀ (find : Matcher) (a : AppState) (p : PaneState),
      p.curY < p.linebuf.length → a.pattern ≠ "" →
      ((handleNormal find [] a p .SearchNext).map fun r => (r.2.curX, r.2.curY))
        = some (p.curX, specSearchNextY find a.pattern p.linebuf p.curY) ∧
      ((handleNormal find [] a p .SearchPrev).map fun r => (r.2.curX, r.2.curY))
        = some (p.curX, specSearchPrevY find a.pattern p.linebuf p.curY) := by
  intro find a p hY hpat
  have hl1 : 1 ≤ p.linebuf.length := by omega
  have hsub := checkedSub_some p.linebuf.length 1 hl1
  constructor
  · simp only [handleNormal]
    rw [hsub]
    simp only [Option.bind_eq_bind, Option.bind]
    rw [if_neg hpat]
    by_cases hYe : p.curY = p.linebuf.length - 1
    · rw [if_pos hYe]
      have hspec : specSearchNextY find a.pattern p.linebuf p.curY = p.curY := by
        rw [specSearchNextY,
          appSearch_none_of_ge find a.pattern p.linebuf (p.curY + 1) (by omega)]
      rw [hspec]
      rcases hsr : appSearch find a.pattern p.linebuf (p.linebuf.length - 1)
        with _ | ⟨s0, j0⟩
      · exact searchArmTail a p (by omega)
      · have hb := appSearch_some_bounds find a.pattern p.linebuf
          (p.linebuf.length - 1) s0 j0 (by omega) hsr
        simp only [ifLetSome_some]
        rw [gotoAbsoluteLine_lt p j0 hb.2]
        exact (searchArmTail a { p with curY := j0 } (Nat.le_of_lt hb.2)).trans
          (by simp only [Option.some.injEq, Prod.mk.injEq]; exact ⟨trivial, by omega⟩)
    · rw [if_neg hYe]
      rcases hsr : appSearch find a.pattern p.linebuf (p.curY + 1)
        with _ | ⟨s0, j0⟩
      · have hspec : specSearchNextY find a.pattern p.linebuf p.curY = p.curY := by
          rw [specSearchNextY, hsr]
        rw [hspec]
        exact searchArmTail a p (by omega)
      · have hspec : specSearchNextY find a.pattern p.linebuf p.curY = j0 := by
          rw [specSearchNextY, hsr]
        have hb := appSearch_some_bounds find a.pattern p.linebuf
          (p.curY + 1) s0 j0 (by omega) hsr
        rw [hspec]
        simp only [ifLetSome_some]
        rw [gotoAbsoluteLine_lt p j0 hb.2]
        exact searchArmTail a { p with curY := j0 } (Nat.le_of_lt hb.2)
  · simp only [handleNormal]
    rw [if_neg hpat]
    by_cases hY0 : p.curY = 0
    · rw [if_pos hY0]
      have hspec : specSearchPrevY find a.pattern p.linebuf p.curY = p.curY := by
        rw [specSearchPrevY, if_pos hY0]
      rw [hspec]
      rcases hsr : appSearchRev find a.pattern p.linebuf 0 with _ | ⟨s0, j0⟩
      · exact searchArmTail a p (by omega)
      · have hj0 : j0 = 0 :=
          Nat.le_zero.mp
            (appSearchRev_some_le find a.pattern p.linebuf 0 s0 j0 hsr)
        simp only [ifLetSome_some]
        rw [gotoAbsoluteLine_lt p j0 (by omega)]
        exact (searchArmTail a { p with curY := j0 } (by simp; omega)).trans
          (by simp only [Option.some.injEq, Prod.mk.injEq]; exact ⟨trivial, by omega⟩)
    · rw [if_neg hY0]
      rcases hsr : appSearchRev find a.pattern p.linebuf (p.curY - 1)
        with _ | ⟨s0, j0⟩
      · have hspec : specSearchPrevY find a.pattern p.linebuf p.curY = p.curY := by
          rw [specSearchPrevY, if_neg hY0, hsr]
        rw [hspec]
        exact searchArmTail a p (by omega)
      · have hspec : specSearchPrevY find a.pattern p.linebuf p.curY = j0 := by
          rw [specSearchPrevY, if_neg hY0, hsr]
        have hle := appSearchRev_some_le find a.pattern p.linebuf (p.curY - 1)
          s0 j0 hsr
        rw [hspec]
        simp only [ifLetSome_some]
        rw [gotoAbsoluteLine_lt p j0 (by omega)]
        exact searchArmTail a { p with curY := j0 } (by simp; omega)

/-- C7 witness: on `["a", "b", "b"]` with pattern `"b"` from the top,
`SearchNext` lands on line 1; from line 2, `SearchPrev` lands on line 1. -/
theorem search_next_prev_follow_spec_witness :
    ((handleNormal planeFind [] { appNew with pattern := "b" }
        (mkPane ["a", "b", "b"] 10 10) .SearchNext).map
      fun r => (r.2.curX, r.2.curY)) = some (0, 1) ∧
    ((handleNormal planeFind [] { appNew with pattern := "b" }
        { mkPane ["a", "b", "b"] 10 10 with curY := 2 } .SearchPrev).map
      fun r => (r.2.curX, r.2.curY)) = some (0, 1) :=
  ⟨((search_next_prev_follow_spec planeFind { appNew with pattern := "b" }
      (mkPane ["a", "b", "b"] 10 10) (by decide) (by decide)).1).trans
    (by decide),
   ((search_next_prev_follow_spec planeFind { appNew with pattern := "b" }
      { mkPane ["a", "b", "b"] 10 10 with curY := 2 } (by decide)
      (by decide)).2).trans (by decide)⟩
